import Mathlib

/-!
Verification of the OpenCL grayscale conversion program (`src/Source.cpp`).

The development has two parts.

1. A model of the OpenCL kernel `convertToGrayscale` (Source.cpp lines 13-21).
   Device memory is a pair of byte buffers (`List Nat`, each entry a byte
   value).  One work item at global id `(x, y)` computes
   `index = y * imgWidth + x`, reads the four bytes of the input pixel at
   `index`, computes `grayscale = (px.x + px.y + px.z) / 3` (the OpenCL
   `uchar` operands are promoted to `int`, the quotient is truncated and the
   result is converted back to `uchar`, i.e. reduced mod 256), and stores
   `(grayscale, grayscale, grayscale, px.w)` at `index` in the output buffer.
   A dispatch executes every work item of the 2-D range `(W, H)` in some
   order; the order is a parameter so that order independence (determinism)
   is a provable statement rather than an artifact of the model.

2. A model of `main` (Source.cpp lines 23-147).  Every fallible external
   call (image decode, the OpenCL API calls) is represented by a boolean in
   an environment record; `runMain` is a straight-line translation of the
   sequence of checks and early returns in the source, recording the exit
   code, the resources acquired and released, the diagnostics written to the
   `cerr` stream object (which the source redirects to `/dev/null` before
   any work and restores only on the success path), and whether the encode
   step (`cv::imwrite`) was reached.
-/

/-- `uchar grayscale = (px.x + px.y + px.z) / 3;` from the kernel source:
the three `uchar` channels are promoted to `int`, summed, divided by 3 with
truncation, and the assignment back to `uchar` reduces mod 256. -/
def grayOf (r g b : Nat) : Nat := ((r + g + b) / 3) % 256

/-- `int index = y * imgWidth + x;` from the kernel source. -/
def pixIdx (W : Nat) (p : Nat × Nat) : Nat := p.2 * W + p.1

/-- Device memory visible to the kernel: the input buffer
(`CL_MEM_READ_ONLY`, initialized from the host RGBA pixels) and the output
buffer (`CL_MEM_WRITE_ONLY`).  Each list entry is one byte. -/
structure DeviceMem where
  inBuf : List Nat
  outBuf : List Nat
deriving Repr, DecidableEq

/-- One work item of `convertToGrayscale` at global id `p = (x, y)`:
reads `inputImage[index]` (bytes `4*index .. 4*index+3` of the input
buffer) and stores `(uchar4)(grayscale, grayscale, grayscale, px.w)` at
`outputImage[index]`.  Reads out of range yield 0 and writes out of range
are no-ops (`List.set` out of range is the identity); a dispatch over the
range `(W, H)` on buffers of length `W*H*4` never goes out of range. -/
def workItem (W : Nat) (s : DeviceMem) (p : Nat × Nat) : DeviceMem :=
  let index := pixIdx W p
  let r := s.inBuf.getD (4 * index) 0
  let g := s.inBuf.getD (4 * index + 1) 0
  let b := s.inBuf.getD (4 * index + 2) 0
  let a := s.inBuf.getD (4 * index + 3) 0
  let gray := grayOf r g b
  { s with
    outBuf :=
      (((s.outBuf.set (4 * index) gray).set (4 * index + 1) gray).set
          (4 * index + 2) gray).set (4 * index + 3) a }

/-- Execute the work items listed in `order`, one after the other.  The
actual device runs them in an unspecified interleaving; any sequential
order of the same set of work items is one linearization of it. -/
def runDispatch (W : Nat) (order : List (Nat × Nat)) (s : DeviceMem) : DeviceMem :=
  order.foldl (workItem W) s

/-- The full 2-D global work size `(W, H)` of
`clEnqueueNDRangeKernel(cmdQueue, clKernel, 2, NULL, globalWorkSize, ...)`:
every `(x, y)` with `x < W` and `y < H`, enumerated row by row. -/
def fullRange (W H : Nat) : List (Nat × Nat) :=
  (List.range H).flatMap (fun y => (List.range W).map (fun x => (x, y)))

/-- The readback buffer of one run: dispatch the whole `(W, H)` range over
an input buffer `inBuf` and an output buffer of the same size
(`sizeof(uchar) * 4 * width * height`), then read the output buffer back.
The output buffer's initial contents are undefined (`CL_MEM_WRITE_ONLY`,
host pointer NULL); the canonical run takes them to be all zero. -/
def readback (W H : Nat) (inBuf : List Nat) : List Nat :=
  (runDispatch W (fullRange W H)
      { inBuf := inBuf, outBuf := List.replicate (W * H * 4) 0 }).outBuf

/-- The gray value of pixel `i` of a buffer: `(in[4i] + in[4i+1] + in[4i+2]) / 3`
as the kernel computes it. -/
def grayAt (inBuf : List Nat) (i : Nat) : Nat :=
  grayOf (inBuf.getD (4 * i) 0) (inBuf.getD (4 * i + 1) 0) (inBuf.getD (4 * i + 2) 0)

-- ### Basic lemmas about the kernel model

theorem grayOf_le (r g b : Nat) (hr : r ≤ 255) (hg : g ≤ 255) (hb : b ≤ 255) :
    grayOf r g b = (r + g + b) / 3 ∧ (r + g + b) / 3 ≤ 255 := by
  have hsum : r + g + b ≤ 765 := by omega
  have hdiv : (r + g + b) / 3 ≤ 255 := by
    have := Nat.div_le_div_right (c := 3) hsum
    simpa using this
  refine ⟨?_, hdiv⟩
  unfold grayOf
  exact Nat.mod_eq_of_lt (by omega)

theorem workItem_inBuf (W : Nat) (s : DeviceMem) (p : Nat × Nat) :
    (workItem W s p).inBuf = s.inBuf := rfl

theorem workItem_outBuf_length (W : Nat) (s : DeviceMem) (p : Nat × Nat) :
    (workItem W s p).outBuf.length = s.outBuf.length := by
  simp [workItem]

theorem runDispatch_outBuf_length (W : Nat) (order : List (Nat × Nat)) (s : DeviceMem) :
    (runDispatch W order s).outBuf.length = s.outBuf.length := by
  induction order generalizing s with
  | nil => rfl
  | cons q rest ih =>
    simpa [runDispatch, List.foldl_cons, workItem_outBuf_length]
      using ih (workItem W s q)

theorem getD_set_self (l : List Nat) (i v : Nat) (h : i < l.length) :
    (l.set i v).getD i 0 = v := by
  rw [List.getD_eq_getElem?_getD, List.getElem?_set_self h]
  rfl

theorem getD_set_ne (l : List Nat) (i j v : Nat) (h : i ≠ j) :
    (l.set i v).getD j 0 = l.getD j 0 := by
  rw [List.getD_eq_getElem?_getD, List.getElem?_set_ne h, ← List.getD_eq_getElem?_getD]

theorem workItem_frame (W : Nat) (s : DeviceMem) (p : Nat × Nat) (i c : Nat)
    (hc : c ≤ 3) (hne : pixIdx W p ≠ i) :
    (workItem W s p).outBuf.getD (4 * i + c) 0 = s.outBuf.getD (4 * i + c) 0 := by
  unfold workItem
  simp only
  rw [getD_set_ne _ _ _ _ (by omega), getD_set_ne _ _ _ _ (by omega),
    getD_set_ne _ _ _ _ (by omega), getD_set_ne _ _ _ _ (by omega)]

theorem runDispatch_frame (W : Nat) (order : List (Nat × Nat)) (s : DeviceMem) (i c : Nat)
    (hc : c ≤ 3) (h : ∀ q ∈ order, pixIdx W q ≠ i) :
    (runDispatch W order s).outBuf.getD (4 * i + c) 0 = s.outBuf.getD (4 * i + c) 0 := by
  induction order generalizing s with
  | nil => rfl
  | cons q rest ih =>
    have hstep : runDispatch W (q :: rest) s = runDispatch W rest (workItem W s q) := rfl
    rw [hstep, ih (workItem W s q) (fun q' hq' => h q' (List.mem_cons_of_mem _ hq')),
      workItem_frame W s q i c hc (h q (List.mem_cons_self q rest))]

theorem workItem_writes (W : Nat) (s : DeviceMem) (p : Nat × Nat)
    (hlt : 4 * pixIdx W p + 3 < s.outBuf.length) :
    (workItem W s p).outBuf.getD (4 * pixIdx W p) 0 = grayAt s.inBuf (pixIdx W p) ∧
    (workItem W s p).outBuf.getD (4 * pixIdx W p + 1) 0 = grayAt s.inBuf (pixIdx W p) ∧
    (workItem W s p).outBuf.getD (4 * pixIdx W p + 2) 0 = grayAt s.inBuf (pixIdx W p) ∧
    (workItem W s p).outBuf.getD (4 * pixIdx W p + 3) 0 = s.inBuf.getD (4 * pixIdx W p + 3) 0 := by
  unfold workItem grayAt
  simp only
  refine ⟨?_, ?_, ?_, ?_⟩
  · rw [getD_set_ne _ _ _ _ (by omega), getD_set_ne _ _ _ _ (by omega),
      getD_set_ne _ _ _ _ (by omega),
      getD_set_self _ _ _ (by omega)]
  · rw [getD_set_ne _ _ _ _ (by omega), getD_set_ne _ _ _ _ (by omega),
      getD_set_self _ _ _ (by simpa using by omega)]
  · rw [getD_set_ne _ _ _ _ (by omega),
      getD_set_self _ _ _ (by simpa using by omega)]
  · rw [getD_set_self _ _ _ (by simpa using by omega)]

theorem runDispatch_getD (W : Nat) (order : List (Nat × Nat)) (s : DeviceMem) (i : Nat)
    (hlt : 4 * i + 3 < s.outBuf.length)
    (hmem : ∃ q ∈ order, pixIdx W q = i) :
    (runDispatch W order s).outBuf.getD (4 * i) 0 = grayAt s.inBuf i ∧
    (runDispatch W order s).outBuf.getD (4 * i + 1) 0 = grayAt s.inBuf i ∧
    (runDispatch W order s).outBuf.getD (4 * i + 2) 0 = grayAt s.inBuf i ∧
    (runDispatch W order s).outBuf.getD (4 * i + 3) 0 = s.inBuf.getD (4 * i + 3) 0 := by
  induction order generalizing s with
  | nil => simp at hmem
  | cons q rest ih =>
    have hstep : runDispatch W (q :: rest) s = runDispatch W rest (workItem W s q) := rfl
    by_cases hrest : ∃ q' ∈ rest, pixIdx W q' = i
    · have hlen : 4 * i + 3 < (workItem W s q).outBuf.length := by
        rw [workItem_outBuf_length]; exact hlt
      have := ih (workItem W s q) hlen hrest
      rw [workItem_inBuf] at this
      simpa [hstep] using this
    · rcases hmem with ⟨q', hq', hidx⟩
      rcases List.mem_cons.mp hq' with hq | hq
      · subst hq
        subst hidx
        push_neg at hrest
        have hframe : ∀ c : Nat, c ≤ 3 →
            (runDispatch W rest (workItem W s q')).outBuf.getD (4 * pixIdx W q' + c) 0 =
              (workItem W s q').outBuf.getD (4 * pixIdx W q' + c) 0 :=
          fun c hc => runDispatch_frame W rest (workItem W s q') (pixIdx W q') c hc hrest
        have h0 := hframe 0 (by omega)
        have h1 := hframe 1 (by omega)
        have h2 := hframe 2 (by omega)
        have h3 := hframe 3 (by omega)
        simp only [Nat.add_zero] at h0
        rw [hstep, h0, h1, h2, h3]
        exact workItem_writes W s q' hlt
      · exact absurd ⟨q', hq, hidx⟩ hrest

theorem mem_fullRange (W H : Nat) (p : Nat × Nat) :
    p ∈ fullRange W H ↔ p.1 < W ∧ p.2 < H := by
  rcases p with ⟨x, y⟩
  simp only [fullRange, List.mem_flatMap, List.mem_map, List.mem_range]
  constructor
  · rintro ⟨y', hy', x', hx', hxy⟩
    cases hxy
    exact ⟨hx', hy'⟩
  · rintro ⟨hx, hy⟩
    exact ⟨y, hy, x, hx, rfl⟩

theorem exists_fullRange_pixIdx (W H i : Nat) (hi : i < W * H) :
    ∃ q ∈ fullRange W H, pixIdx W q = i := by
  have hW : 0 < W := by
    rcases Nat.eq_zero_or_pos W with h | h
    · subst h; simp at hi
    · exact h
  refine ⟨(i % W, i / W), ?_, ?_⟩
  · rw [mem_fullRange]
    refine ⟨Nat.mod_lt _ hW, ?_⟩
    exact Nat.div_lt_of_lt_mul (by omega)
  · show i / W * W + i % W = i
    rw [Nat.div_add_mod' i W]

theorem list_ext_getD (l₁ l₂ : List Nat) (hlen : l₁.length = l₂.length)
    (h : ∀ j, j < l₁.length → l₁.getD j 0 = l₂.getD j 0) : l₁ = l₂ := by
  apply List.ext_getElem?_iff.mpr
  intro j
  by_cases hj : j < l₁.length
  · have hj' : j < l₂.length := hlen ▸ hj
    have := h j hj
    rw [List.getD_eq_getElem?_getD, List.getD_eq_getElem?_getD,
      List.getElem?_eq_getElem hj, List.getElem?_eq_getElem hj'] at this
    rw [List.getElem?_eq_getElem hj, List.getElem?_eq_getElem hj']
    simpa using this
  · rw [List.getElem?_eq_none (by omega), List.getElem?_eq_none (by omega)]

theorem getD_le_255 (l : List Nat) (hb : ∀ b ∈ l, b < 256) (j : Nat) :
    l.getD j 0 ≤ 255 := by
  by_cases hj : j < l.length
  · rw [List.getD_eq_getElem?_getD, List.getElem?_eq_getElem hj]
    exact Nat.lt_succ_iff.mp (hb _ (List.getElem_mem hj))
  · rw [List.getD_eq_getElem?_getD, List.getElem?_eq_none (by omega)]
    simp

theorem grayAt_eq (inBuf : List Nat) (hb : ∀ b ∈ inBuf, b < 256) (i : Nat) :
    grayAt inBuf i =
      (inBuf.getD (4 * i) 0 + inBuf.getD (4 * i + 1) 0 + inBuf.getD (4 * i + 2) 0) / 3 :=
  (grayOf_le _ _ _ (getD_le_255 _ hb _) (getD_le_255 _ hb _) (getD_le_255 _ hb _)).1

theorem readback_length (W H : Nat) (inBuf : List Nat) :
    (readback W H inBuf).length = W * H * 4 := by
  unfold readback
  rw [runDispatch_outBuf_length]
  simp

theorem readback_getD (W H i : Nat) (inBuf : List Nat) (hi : i < W * H) :
    (readback W H inBuf).getD (4 * i) 0 = grayAt inBuf i ∧
    (readback W H inBuf).getD (4 * i + 1) 0 = grayAt inBuf i ∧
    (readback W H inBuf).getD (4 * i + 2) 0 = grayAt inBuf i ∧
    (readback W H inBuf).getD (4 * i + 3) 0 = inBuf.getD (4 * i + 3) 0 := by
  unfold readback
  exact runDispatch_getD W (fullRange W H)
    { inBuf := inBuf, outBuf := List.replicate (W * H * 4) 0 } i
    (by rw [List.length_replicate]; omega)
    (exists_fullRange_pixIdx W H i hi)

-- ### Model of `main` (Source.cpp lines 23-147)

/-- Results of the fallible external calls `main` makes, in program order:
`true` means the call succeeded (`cv::imread` returned a non-empty image,
the OpenCL call returned `CL_SUCCESS`).  `inBufOk` and `outBufOk` are the
`errorVar` outputs of the two `clCreateBuffer` calls on lines 97-98, which
the source requests (`&errorVar`) but never tests. -/
structure Env where
  decodeOk : Bool
  platformOk : Bool
  deviceOk : Bool
  contextOk : Bool
  queueOk : Bool
  programOk : Bool
  buildOk : Bool
  kernelOk : Bool
  inBufOk : Bool
  outBufOk : Bool
  setArgsOk : Bool
  enqueueOk : Bool
  readOk : Bool
deriving Repr, DecidableEq

/-- The releasable OpenCL handles `main` acquires.  Platform and device ids
are not reference-counted objects and are not tracked. -/
inductive Res where
  | context
  | cmdQueue
  | program
  | kernel
  | inputBuffer
  | outputBuffer
deriving Repr, DecidableEq

/-- The one-line diagnostics `main` writes to `std::cerr`, one per failure
check in the source (lines 36, 52, 59, 65, 71, 78, 84, 90, 105, 113, 121). -/
inductive Diag where
  | decodeFail
  | platformFail
  | deviceFail
  | contextFail
  | queueFail
  | programFail
  | buildFail
  | kernelFail
  | argsFail
  | enqueueFail
  | readFail
deriving Repr, DecidableEq

/-- Observable outcome of one run of `main`: the exit code, the handles
acquired (in acquisition order) and released (in the order of the release
calls), the diagnostics written to the `cerr` stream object while it is
redirected to `/dev/null` (`stderrSunk`) and while it is attached to the
process's real error stream (`stderrSeen`), whether the success line was
printed to the restored `stdout`, and whether `cv::imwrite` was reached. -/
structure RunResult where
  exitCode : Nat
  acquired : List Res
  released : List Res
  stderrSunk : List Diag
  stderrSeen : List Diag
  successLineSeen : Bool
  encodeCalled : Bool
deriving Repr, DecidableEq

/-- The handles held after the two `clCreateBuffer` calls (lines 97-98):
the context, queue, program and kernel, plus whichever of the two device
buffers was actually created.  The source does not test `errorVar` after
either call, so execution continues past this point in every case. -/
def acquiredAfterBuffers (e : Env) : List Res :=
  [Res.context, Res.cmdQueue, Res.program, Res.kernel] ++
    (if e.inBufOk then [Res.inputBuffer] else []) ++
    (if e.outBufOk then [Res.outputBuffer] else [])

/-- Straight-line translation of `main`.  Lines 26-31 redirect `cout` and
`cerr` to `/dev/null` before any other work, so every diagnostic below
lands in `stderrSunk`; the streams are restored (lines 141-142) only on the
success path, after cleanup.  Each failure check `return 1`s immediately,
releasing nothing.  The two buffer-creation calls (lines 97-98) are not
followed by any check: `errorVar` is overwritten by `clSetKernelArg` on
line 100, so execution continues regardless of `inBufOk`/`outBufOk`. -/
def runMain (e : Env) : RunResult :=
  if e.decodeOk = false then
    { exitCode := 1, acquired := [], released := [], stderrSunk := [Diag.decodeFail],
      stderrSeen := [], successLineSeen := false, encodeCalled := false }
  else if e.platformOk = false then
    { exitCode := 1, acquired := [], released := [], stderrSunk := [Diag.platformFail],
      stderrSeen := [], successLineSeen := false, encodeCalled := false }
  else if e.deviceOk = false then
    { exitCode := 1, acquired := [], released := [], stderrSunk := [Diag.deviceFail],
      stderrSeen := [], successLineSeen := false, encodeCalled := false }
  else if e.contextOk = false then
    { exitCode := 1, acquired := [], released := [], stderrSunk := [Diag.contextFail],
      stderrSeen := [], successLineSeen := false, encodeCalled := false }
  else if e.queueOk = false then
    { exitCode := 1, acquired := [Res.context], released := [],
      stderrSunk := [Diag.queueFail],
      stderrSeen := [], successLineSeen := false, encodeCalled := false }
  else if e.programOk = false then
    { exitCode := 1, acquired := [Res.context, Res.cmdQueue], released := [],
      stderrSunk := [Diag.programFail],
      stderrSeen := [], successLineSeen := false, encodeCalled := false }
  else if e.buildOk = false then
    { exitCode := 1, acquired := [Res.context, Res.cmdQueue, Res.program], released := [],
      stderrSunk := [Diag.buildFail],
      stderrSeen := [], successLineSeen := false, encodeCalled := false }
  else if e.kernelOk = false then
    { exitCode := 1, acquired := [Res.context, Res.cmdQueue, Res.program], released := [],
      stderrSunk := [Diag.kernelFail],
      stderrSeen := [], successLineSeen := false, encodeCalled := false }
  else if e.setArgsOk = false then
    { exitCode := 1, acquired := acquiredAfterBuffers e, released := [],
      stderrSunk := [Diag.argsFail],
      stderrSeen := [], successLineSeen := false, encodeCalled := false }
  else if e.enqueueOk = false then
    { exitCode := 1, acquired := acquiredAfterBuffers e, released := [],
      stderrSunk := [Diag.enqueueFail],
      stderrSeen := [], successLineSeen := false, encodeCalled := false }
  else if e.readOk = false then
    { exitCode := 1, acquired := acquiredAfterBuffers e, released := [],
      stderrSunk := [Diag.readFail],
      stderrSeen := [], successLineSeen := false, encodeCalled := false }
  else
    { exitCode := 0, acquired := acquiredAfterBuffers e,
        released := [Res.inputBuffer, Res.outputBuffer, Res.kernel, Res.program,
          Res.cmdQueue, Res.context],
        stderrSunk := [], stderrSeen := [], successLineSeen := true,
        encodeCalled := true }

/-- The environment in which every external call succeeds. -/
def envAllOk : Env :=
  { decodeOk := true, platformOk := true, deviceOk := true, contextOk := true,
    queueOk := true, programOk := true, buildOk := true, kernelOk := true,
    inBufOk := true, outBufOk := true, setArgsOk := true, enqueueOk := true,
    readOk := true }

-- ### Claim theorems

/-- C1: for every `W ≥ 1`, `H ≥ 1`, every input RGBA buffer of length
`W*H*4` (all entries bytes, `< 256`), and every pixel index `i < W*H`, the
transform produces an output buffer of the same length in which the three
color bytes `out[4i]`, `out[4i+1]`, `out[4i+2]` all equal
`(in[4i] + in[4i+1] + in[4i+2]) / 3` with integer truncation, and the alpha
byte `out[4i+3]` equals `in[4i+3]` unchanged. -/
theorem grayscale_transform_correct (W H : Nat) (inBuf : List Nat) (i : Nat)
    (hW : 1 ≤ W) (hH : 1 ≤ H) (hlen : inBuf.length = W * H * 4)
    (hbytes : ∀ b ∈ inBuf, b < 256) (hi : i < W * H) :
    (readback W H inBuf).length = inBuf.length ∧
    (readback W H inBuf).getD (4 * i) 0 =
      (inBuf.getD (4 * i) 0 + inBuf.getD (4 * i + 1) 0 + inBuf.getD (4 * i + 2) 0) / 3 ∧
    (readback W H inBuf).getD (4 * i + 1) 0 =
      (inBuf.getD (4 * i) 0 + inBuf.getD (4 * i + 1) 0 + inBuf.getD (4 * i + 2) 0) / 3 ∧
    (readback W H inBuf).getD (4 * i + 2) 0 =
      (inBuf.getD (4 * i) 0 + inBuf.getD (4 * i + 1) 0 + inBuf.getD (4 * i + 2) 0) / 3 ∧
    (readback W H inBuf).getD (4 * i + 3) 0 = inBuf.getD (4 * i + 3) 0 := by
  obtain ⟨h0, h1, h2, h3⟩ := readback_getD W H i inBuf hi
  rw [grayAt_eq inBuf hbytes i] at h0 h1 h2
  exact ⟨by rw [readback_length, hlen], h0, h1, h2, h3⟩

/-- Witness for C1 at the spec's scenario S1: a 1×1 image whose single
pixel is `(90, 150, 210, 255)`; the readback pixel is `(150, 150, 150, 255)`. -/
theorem grayscale_transform_correct_witness :
    (readback 1 1 [90, 150, 210, 255]).length = ([90, 150, 210, 255] : List Nat).length ∧
    (readback 1 1 [90, 150, 210, 255]).getD 0 0 = 150 ∧
    (readback 1 1 [90, 150, 210, 255]).getD 1 0 = 150 ∧
    (readback 1 1 [90, 150, 210, 255]).getD 2 0 = 150 ∧
    (readback 1 1 [90, 150, 210, 255]).getD 3 0 = 255 :=
  grayscale_transform_correct 1 1 [90, 150, 210, 255] 0 (by decide) (by decide)
    (by decide) (by decide) (by decide)

/-- C5: the transform is idempotent on grayscale input: for every RGBA
buffer in which every pixel has `R = G = B`, the transform returns a
byte-identical buffer, alpha included. -/
theorem grayscale_idempotent (W H : Nat) (inBuf : List Nat)
    (hlen : inBuf.length = W * H * 4) (hbytes : ∀ b ∈ inBuf, b < 256)
    (hgray : ∀ i, i < W * H →
      inBuf.getD (4 * i) 0 = inBuf.getD (4 * i + 1) 0 ∧
      inBuf.getD (4 * i + 1) 0 = inBuf.getD (4 * i + 2) 0) :
    readback W H inBuf = inBuf := by
  apply list_ext_getD
  · rw [readback_length, hlen]
  · intro j hj
    rw [readback_length] at hj
    have hi : j / 4 < W * H := by omega
    obtain ⟨h0, h1, h2, h3⟩ := readback_getD W H (j / 4) inBuf hi
    obtain ⟨hg1, hg2⟩ := hgray (j / 4) hi
    have hval : grayAt inBuf (j / 4) = inBuf.getD (4 * (j / 4)) 0 := by
      rw [grayAt_eq inBuf hbytes, ← hg2, ← hg1]
      omega
    have hj4 : j % 4 = 0 ∨ j % 4 = 1 ∨ j % 4 = 2 ∨ j % 4 = 3 := by omega
    rcases hj4 with h | h | h | h
    · have hje : j = 4 * (j / 4) := by omega
      rw [hje, h0, hval]
    · have hje : j = 4 * (j / 4) + 1 := by omega
      rw [hje, h1, hval, hg1]
    · have hje : j = 4 * (j / 4) + 2 := by omega
      rw [hje, h2, hval, hg1, hg2]
    · have hje : j = 4 * (j / 4) + 3 := by omega
      rw [hje, h3]

/-- Witness for C5: a 1×1 already-grayscale image `(7, 7, 7, 9)` is
returned byte-identically. -/
theorem grayscale_idempotent_witness :
    readback 1 1 [7, 7, 7, 9] = [7, 7, 7, 9] :=
  grayscale_idempotent 1 1 [7, 7, 7, 9] (by decide) (by decide) (by decide)

/-- C6: the transform is deterministic: two dispatches over the same input
bytes produce byte-identical readback buffers, whatever order the device
runs the work items in (any permutation of the `(W, H)` range) and whatever
the undefined initial contents of the write-only output buffer are. -/
theorem grayscale_deterministic (W H : Nat) (inBuf ob₁ ob₂ : List Nat)
    (order₁ order₂ : List (Nat × Nat))
    (h₁ : order₁.Perm (fullRange W H)) (h₂ : order₂.Perm (fullRange W H))
    (hob₁ : ob₁.length = W * H * 4) (hob₂ : ob₂.length = W * H * 4) :
    (runDispatch W order₁ { inBuf := inBuf, outBuf := ob₁ }).outBuf =
      (runDispatch W order₂ { inBuf := inBuf, outBuf := ob₂ }).outBuf := by
  apply list_ext_getD
  · rw [runDispatch_outBuf_length, runDispatch_outBuf_length]
    show ob₁.length = ob₂.length
    omega
  · intro j hj
    rw [runDispatch_outBuf_length] at hj
    have hj' : j < W * H * 4 := by
      have : ({ inBuf := inBuf, outBuf := ob₁ } : DeviceMem).outBuf.length = W * H * 4 := hob₁
      omega
    have hi : j / 4 < W * H := by omega
    have hm₁ : ∃ q ∈ order₁, pixIdx W q = j / 4 := by
      obtain ⟨q, hq, hqi⟩ := exists_fullRange_pixIdx W H (j / 4) hi
      exact ⟨q, h₁.mem_iff.mpr hq, hqi⟩
    have hm₂ : ∃ q ∈ order₂, pixIdx W q = j / 4 := by
      obtain ⟨q, hq, hqi⟩ := exists_fullRange_pixIdx W H (j / 4) hi
      exact ⟨q, h₂.mem_iff.mpr hq, hqi⟩
    obtain ⟨a0, a1, a2, a3⟩ := runDispatch_getD W order₁
      { inBuf := inBuf, outBuf := ob₁ } (j / 4) (by show _ < ob₁.length; omega) hm₁
    obtain ⟨b0, b1, b2, b3⟩ := runDispatch_getD W order₂
      { inBuf := inBuf, outBuf := ob₂ } (j / 4) (by show _ < ob₂.length; omega) hm₂
    have hj4 : j % 4 = 0 ∨ j % 4 = 1 ∨ j % 4 = 2 ∨ j % 4 = 3 := by omega
    rcases hj4 with h | h | h | h
    · have hje : j = 4 * (j / 4) := by omega
      rw [hje, a0, b0]
    · have hje : j = 4 * (j / 4) + 1 := by omega
      rw [hje, a1, b1]
    · have hje : j = 4 * (j / 4) + 2 := by omega
      rw [hje, a2, b2]
    · have hje : j = 4 * (j / 4) + 3 := by omega
      rw [hje, a3, b3]

/-- Witness for C6: the spec's scenario S4 input dispatched in the two
possible work-item orders, over different initial output buffer contents,
reads back identically. -/
theorem grayscale_deterministic_witness :
    (runDispatch 2 [(0, 0), (1, 0)]
        { inBuf := [30, 60, 90, 255, 255, 0, 0, 10],
          outBuf := [0, 0, 0, 0, 0, 0, 0, 0] }).outBuf =
      (runDispatch 2 [(1, 0), (0, 0)]
        { inBuf := [30, 60, 90, 255, 255, 0, 0, 10],
          outBuf := [9, 9, 9, 9, 9, 9, 9, 9] }).outBuf :=
  grayscale_deterministic 2 1 [30, 60, 90, 255, 255, 0, 0, 10]
    [0, 0, 0, 0, 0, 0, 0, 0] [9, 9, 9, 9, 9, 9, 9, 9]
    [(0, 0), (1, 0)] [(1, 0), (0, 0)] (by decide) (by decide) (by decide) (by decide)

/-- C8: the per-pixel gray value never overflows: for byte channels the
promoted sum is at most 765, the quotient `(R + G + B) / 3` is at most 255,
and the conversion back to an 8-bit channel (the `% 256` in `grayOf`) never
wraps: `grayOf` returns exactly the truncated quotient. -/
theorem grayscale_no_overflow (r g b : Nat) (hr : r ≤ 255) (hg : g ≤ 255) (hb : b ≤ 255) :
    r + g + b ≤ 765 ∧ grayOf r g b = (r + g + b) / 3 ∧ grayOf r g b ≤ 255 := by
  obtain ⟨heq, hle⟩ := grayOf_le r g b hr hg hb
  exact ⟨by omega, heq, heq ▸ hle⟩

/-- Witness for C8 at the extreme pixel `(255, 255, 255)`. -/
theorem grayscale_no_overflow_witness :
    (255 : Nat) + 255 + 255 ≤ 765 ∧ grayOf 255 255 255 = (255 + 255 + 255) / 3 ∧
      grayOf 255 255 255 ≤ 255 :=
  grayscale_no_overflow 255 255 255 (by decide) (by decide) (by decide)

/-- C10: the input pixel data is never modified: after dispatching any list
of work items over any device memory state, the input buffer's contents
equal their contents before the dispatch (each work item only reads
`inputImage` and writes only `outputImage`). -/
theorem input_buffer_unmodified (W : Nat) (order : List (Nat × Nat)) (s : DeviceMem) :
    (runDispatch W order s).inBuf = s.inBuf := by
  induction order generalizing s with
  | nil => rfl
  | cons q rest ih => exact ih (workItem W s q)

/-- C7: if the codec cannot decode the input (e.g. the input path does not
exist), the run exits with code 1, the decode-failure diagnostic is the
only one written, nothing is acquired, and the encode step (`cv::imwrite`)
is never reached, so no output file is created or modified. -/
theorem decode_failure_short_circuits (e : Env) (h : e.decodeOk = false) :
    (runMain e).exitCode = 1 ∧ (runMain e).stderrSunk = [Diag.decodeFail] ∧
    (runMain e).encodeCalled = false ∧ (runMain e).acquired = [] := by
  simp [runMain, h]

/-- Witness for C7: the environment where decoding fails and every other
call would have succeeded. -/
theorem decode_failure_short_circuits_witness :
    (runMain { envAllOk with decodeOk := false }).exitCode = 1 ∧
    (runMain { envAllOk with decodeOk := false }).stderrSunk = [Diag.decodeFail] ∧
    (runMain { envAllOk with decodeOk := false }).encodeCalled = false ∧
    (runMain { envAllOk with decodeOk := false }).acquired = [] :=
  decode_failure_short_circuits { envAllOk with decodeOk := false } (by decide)

/-- C9: every failure path of `main` returns exit code exactly 1 (with no
success line and at least one diagnostic written); the success path returns
exactly 0 (with the success line and no diagnostic). -/
theorem exit_code_discipline (e : Env) :
    ((runMain e).exitCode = 0 ∧ (runMain e).successLineSeen = true ∧
      (runMain e).stderrSunk = []) ∨
    ((runMain e).exitCode = 1 ∧ (runMain e).successLineSeen = false ∧
      (runMain e).stderrSunk ≠ []) := by
  obtain ⟨d, p, dv, c, q, pr, b, k, ib, ob, sa, en, rd⟩ := e
  cases d
  · exact Or.inr ⟨rfl, rfl, List.cons_ne_nil _ _⟩
  cases p
  · exact Or.inr ⟨rfl, rfl, List.cons_ne_nil _ _⟩
  cases dv
  · exact Or.inr ⟨rfl, rfl, List.cons_ne_nil _ _⟩
  cases c
  · exact Or.inr ⟨rfl, rfl, List.cons_ne_nil _ _⟩
  cases q
  · exact Or.inr ⟨rfl, rfl, List.cons_ne_nil _ _⟩
  cases pr
  · exact Or.inr ⟨rfl, rfl, List.cons_ne_nil _ _⟩
  cases b
  · exact Or.inr ⟨rfl, rfl, List.cons_ne_nil _ _⟩
  cases k
  · exact Or.inr ⟨rfl, rfl, List.cons_ne_nil _ _⟩
  cases sa
  · exact Or.inr ⟨rfl, rfl, List.cons_ne_nil _ _⟩
  cases en
  · exact Or.inr ⟨rfl, rfl, List.cons_ne_nil _ _⟩
  cases rd
  · exact Or.inr ⟨rfl, rfl, List.cons_ne_nil _ _⟩
  exact Or.inl ⟨rfl, rfl, rfl⟩

/-- C2 (code bug in the source): in the environment where command-queue
creation fails after the context was created, the run ends with exit code 1
with the context acquired and nothing released — the failure paths of
`main` `return 1` without any release call, so already-acquired resources
are not released at all, let alone in reverse acquisition order. -/
theorem queue_failure_releases_nothing :
    (runMain { envAllOk with queueOk := false }).exitCode = 1 ∧
    (runMain { envAllOk with queueOk := false }).acquired = [Res.context] ∧
    (runMain { envAllOk with queueOk := false }).released = [] := by
  decide

/-- C3 (code bug in the source): on the decode-failure path the diagnostic
is written to the `cerr` object after lines 26-31 redirected it to
`/dev/null`, and the streams are restored only on the success path, so the
caller-visible error stream stays empty; in fact no run of `main` ever puts
a diagnostic on the caller-visible error stream.  The non-zero exit code
itself does hold. -/
theorem diagnostic_not_observable :
    (runMain { envAllOk with decodeOk := false }).exitCode = 1 ∧
    (runMain { envAllOk with decodeOk := false }).stderrSunk = [Diag.decodeFail] ∧
    (runMain { envAllOk with decodeOk := false }).stderrSeen = [] ∧
    (∀ e : Env, (runMain e).stderrSeen = []) := by
  refine ⟨by decide, by decide, by decide, ?_⟩
  intro e
  obtain ⟨d, p, dv, c, q, pr, b, k, ib, ob, sa, en, rd⟩ := e
  cases d
  · rfl
  cases p
  · rfl
  cases dv
  · rfl
  cases c
  · rfl
  cases q
  · rfl
  cases pr
  · rfl
  cases b
  · rfl
  cases k
  · rfl
  cases sa
  · rfl
  cases en
  · rfl
  cases rd
  · rfl
  rfl

/-- C4 (code bug in the source): when creation of the read-only input
buffer fails (the `errorVar` of the first `clCreateBuffer` call reports an
error) and every other call succeeds, the run does not abort: no diagnostic
of any kind is written (the source has no alloc-failure check at all), the
exit code is 0, and execution continues through dispatch and the encode
step with the invalid buffer handle. -/
theorem buffer_creation_failure_ignored :
    (runMain { envAllOk with inBufOk := false }).exitCode = 0 ∧
    (runMain { envAllOk with inBufOk := false }).stderrSunk = [] ∧
    (runMain { envAllOk with inBufOk := false }).stderrSeen = [] ∧
    (runMain { envAllOk with inBufOk := false }).encodeCalled = true ∧
    (runMain { envAllOk with inBufOk := false }).acquired =
      [Res.context, Res.cmdQueue, Res.program, Res.kernel, Res.outputBuffer] := by
  decide
